import Mathlib

/-!
# Verification of the gold-rate calculator's fetch/cache/retry pipeline

Shallow embedding of `src/app.py` (single-file Streamlit app).  Times and
prices are modelled as rationals; the network is an oracle mapping the
attempt number (1-based) to the response `requests.get` observes; the
session state (`st.session_state`) is an explicit record threaded through
the handler.
-/

namespace GoldRate

/-- `GRAMS_PER_TROY_OUNCE = 31.1034768` (app.py line 7). -/
def GRAMS_PER_TROY_OUNCE : ℚ := 311034768 / 10000000

/-! ## Retry-After header and Python `or` -/

/-- The `Retry-After` header as seen through `int(float(ra))` wrapped in
`try/except` (app.py lines 72-78): the header can be absent, present but
not parseable as a float, or parse to the integer `n`. -/
inductive RAHeader
  | absent
  | malformed
  | value (n : ℤ)
deriving DecidableEq, Repr

/-- Result of the `try: last_retry_after = int(float(ra)) except: ... = None`
block: `none` when the header is absent or fails to parse. -/
def parseRA : RAHeader → Option ℤ
  | .absent => none
  | .malformed => none
  | .value n => some n

/-- Python `x or y` on an `Optional[int]` left operand: `None` and `0` are
falsy, any other integer is returned unchanged. -/
def pyOrInt (x : Option ℤ) (y : ℤ) : ℤ :=
  match x with
  | none => y
  | some n => if n = 0 then y else n

/-! ## `http_get` (app.py lines 64-93) -/

/-- One network response as `requests.get` delivers it (body type `β`):
a 2xx response (`raise_for_status` passes), an HTTP 429, another non-2xx
status (`raise_for_status` raises `HTTPError`), or a transport-level
exception (timeout, connection error). -/
inductive NetResp (β : Type)
  | ok (body : β)
  | status429 (ra : RAHeader)
  | httpError (code : ℕ)
  | transportError (msg : String)
deriving DecidableEq, Repr

/-- What `http_get` hands back to its caller: the `(resp, None)` success
tuple, the `(None, hint)` rate-limited tuple, a re-raised exception from
the last attempt, or the unreachable `RuntimeError` (attempts = 0). -/
inductive GetResult (β : Type)
  | success (body : β)
  | rateLimited (hint : Option ℤ)
  | raisedHttp (code : ℕ)
  | raisedTransport (msg : String)
  | unreachable
deriving DecidableEq, Repr

/-- `true` for the responses `http_get` retries after a backoff sleep:
transport errors and `HTTPError`s whose message does not contain "429"
(for this app's fixed URLs, exactly the non-429 error statuses). -/
def isRetryableErr {β : Type} : NetResp β → Bool
  | .httpError code => code ≠ 429
  | .transportError _ => true
  | _ => false

/-- `true` when the outcome is a propagated exception. -/
def GetResult.isRaised {β : Type} : GetResult β → Bool
  | .raisedHttp _ => true
  | .raisedTransport _ => true
  | _ => false

/-- The retry loop of `http_get` (app.py lines 67-92).  `fuel` is the number
of attempts still available including the current one (`fuel = 0` means the
`for` loop is exhausted), `attempt` is the 1-based attempt counter, `backoff`
the current sleep duration.  Returns the outcome, the number of HTTP
requests issued, and the list of sleeps performed.  On a 429 the hint is
`last_retry_after or int(backoff)` (line 85); on another error the loop
re-raises when `attempt == attempts` and otherwise sleeps `backoff` and
doubles it. -/
def httpGetLoop {β : Type} (net : ℕ → NetResp β) :
    ℕ → ℕ → ℚ → GetResult β × ℕ × List ℚ
  | 0, _, _ => (.unreachable, 0, [])
  | fuel + 1, attempt, backoff =>
    match net attempt with
    | .ok body => (.success body, 1, [])
    | .status429 ra =>
        (.rateLimited (some (pyOrInt (parseRA ra) (Rat.floor backoff))), 1, [])
    | .httpError code =>
        if code = 429 then
          (.rateLimited (some (pyOrInt none (Rat.floor backoff))), 1, [])
        else if fuel = 0 then
          (.raisedHttp code, 1, [])
        else
          let r := httpGetLoop net fuel (attempt + 1) (backoff * 2)
          (r.1, r.2.1 + 1, backoff :: r.2.2)
    | .transportError msg =>
        if fuel = 0 then
          (.raisedTransport msg, 1, [])
        else
          let r := httpGetLoop net fuel (attempt + 1) (backoff * 2)
          (r.1, r.2.1 + 1, backoff :: r.2.2)

/-- `http_get(url, params, headers, attempts)` (app.py lines 64-93), with the
URL/params data abstracted into the network oracle `net`.  Starts with
`backoff = 1.0` at attempt 1. -/
def http_get {β : Type} (net : ℕ → NetResp β) (attempts : ℕ) :
    GetResult β × ℕ × List ℚ :=
  httpGetLoop net attempts 1 1

/-! ## TTL cache (app.py lines 25-56) -/

/-- The `st.session_state.cache` dict after a `cache_set`: the five keys
written together (app.py lines 33-41).  The whole cache is `Option CacheEntry`,
`none` standing for the initial empty dict. -/
structure CacheEntry where
  xau_usd : Option ℚ
  usd_inr : Option ℚ
  fetched_at : ℚ
  source_xau : Option String
  source_fx : Option String
deriving DecidableEq, Repr

/-- `cache_set` (app.py lines 33-41): overwrites every field, stamping the
single current time `now` as `fetched_at`. -/
def cache_set (now : ℚ) (xau usd : Option ℚ) (sx sf : Option String) :
    Option CacheEntry :=
  some ⟨xau, usd, now, sx, sf⟩

/-- `cache_get` (app.py lines 43-50): `None` on an empty cache; otherwise
`None` when `age > cache_ttl_seconds`, else the cached dict. -/
def cache_get (cache : Option CacheEntry) (now ttl : ℚ) : Option CacheEntry :=
  match cache with
  | none => none
  | some c => if now - c.fetched_at > ttl then none else some c

/-! ## Conversion pipeline (app.py lines 140-152) -/

/-- `usd_per_gram = xau_usd / GRAMS_PER_TROY_OUNCE` (line 142). -/
def usd_per_gram (xau_usd : ℚ) : ℚ := xau_usd / GRAMS_PER_TROY_OUNCE

/-- `usd_per_10g = usd_per_gram * 10` (line 143). -/
def usd_per_10g (xau_usd : ℚ) : ℚ := usd_per_gram xau_usd * 10

/-- `inr_per_10g = usd_per_10g * usd_inr` (line 144). -/
def inr_per_10g (xau_usd usd_inr : ℚ) : ℚ := usd_per_10g xau_usd * usd_inr

/-- `base = inr_10g * factor` inside `show_rates` (line 148); the factor is
`1.0` for 24K, `22/24` for 22K, `18/24` for 18K (line 147). -/
def purity_base (inr_10g factor : ℚ) : ℚ := inr_10g * factor

/-- `after_imp = base * (1 + import_duty_pct/100)` (line 149). -/
def after_import (import_duty_pct b : ℚ) : ℚ := b * (1 + import_duty_pct / 100)

/-- `after_gst = after_imp * (1 + gst_pct/100)` (line 150). -/
def after_gst (gst_pct a : ℚ) : ℚ := a * (1 + gst_pct / 100)

/-! ## `fetch_metals_api` (app.py lines 117-129) -/

/-- The parsed JSON body of a Metals-API response, reduced to the only field
the code reads: `(j.get("rates") or {})` looked up at `"XAU"`.  `xau = none`
covers both a missing/null `rates` object and a `rates` object without the
`"XAU"` key — the code treats the two identically (lines 124-125). -/
structure MetalsBody where
  xau : Option ℚ
deriving DecidableEq, Repr

/-- `fetch_metals_api(key)` (app.py lines 117-129) on top of `http_get` with
`attempts=2`.  A 429 yields the `(None, None, retry_after)` triple; a body
carrying the rate `r` yields `(1.0/float(r) if float(r) != 0 else None,
"Metals-API", None)`; a body without the rate raises
`RuntimeError("Metals-API returned unexpected shape")`; exceptions from
`http_get` propagate. -/
def fetch_metals_api (net : ℕ → NetResp MetalsBody) :
    Except String (Option ℚ × Option String × Option ℤ) :=
  match http_get net 2 with
  | (.success body, _, _) =>
      match body.xau with
      | some r =>
          .ok (if r ≠ 0 then some (1 / r) else none, some "Metals-API", none)
      | none => .error "Metals-API returned unexpected shape"
  | (.rateLimited ra, _, _) => .ok (none, none, ra)
  | (.raisedHttp code, _, _) => .error (toString code)
  | (.raisedTransport msg, _, _) => .error msg
  | (.unreachable, _, _) => .error "Unreachable"

/-! ## Refresh handler and UI cooldown (app.py lines 156-216) -/

/-- The mutable session state the refresh flow touches:
`st.session_state.cache`, `st.session_state.last_user_fetch`,
`st.session_state.last_retry_after` (app.py lines 25-30). -/
structure AppState where
  cache : Option CacheEntry
  last_user_fetch : Option ℚ
  last_retry_after : Option ℤ
deriving DecidableEq, Repr

/-- Outcome of one call to a fetcher (`fetch_xau_yahoo`, `fetch_usd_inr`,
`fetch_metals_api`): either the returned `(price, source, retry_after)`
triple, or a raised exception. -/
inductive FetchCall
  | ret (price : Option ℚ) (src : Option String) (ra : Option ℤ)
  | exn (msg : String)
deriving DecidableEq, Repr

/-- The user-visible diagnostics the refresh flow can emit
(`st.warning` / `st.error` / `st.success` / `st.info` calls,
app.py lines 163-216). -/
inductive Msg
  | cooldownWarn
  | primary429 (ra : Option ℤ)
  | primaryFx429 (ra : Option ℤ)
  | cacheUpdated
  | primaryFailed (e : String)
  | fallback429 (ra : Option ℤ)
  | fxFailedWithFallback
  | fallbackSuccess
  | fallbackFailed (e : String)
  | noKeyInfo
deriving DecidableEq, Repr

/-- Observable trace of one refresh: which fetchers were invoked and which
diagnostics were shown. -/
structure RefreshLog where
  calledXau : Bool
  calledFx : Bool
  calledMetals : Bool
  calledFx2 : Bool
  messages : List Msg
deriving DecidableEq, Repr

/-- The fallback block (app.py lines 195-216), entered from
`except Exception as e` with message `e`: error `Primary fetch failed`, then
try Metals-API only when the key text input is non-empty (`if
metals_api_key:`).  Exceptions raised inside the fallback `try` (from
`fetch_metals_api` or the inner `fetch_usd_inr`) land in `except ... ef`. -/
def fallback_fetch (s : AppState) (now : ℚ) (key : String) (e : String)
    (metRes fx2Res : FetchCall) : AppState × RefreshLog :=
  if key = "" then
    (s, ⟨true, false, false, false, [.primaryFailed e, .noKeyInfo]⟩)
  else
    match metRes with
    | .exn ef =>
        (s, ⟨true, false, true, false, [.primaryFailed e, .fallbackFailed ef]⟩)
    | .ret none _ ra =>
        (s, ⟨true, false, true, false, [.primaryFailed e, .fallback429 ra]⟩)
    | .ret (some xau) src _ =>
        match fx2Res with
        | .exn ef =>
            (s, ⟨true, false, true, true,
              [.primaryFailed e, .fallbackFailed ef]⟩)
        | .ret none _ _ =>
            (s, ⟨true, false, true, true,
              [.primaryFailed e, .fxFailedWithFallback]⟩)
        | .ret (some fx) sfx _ =>
            ({ s with cache := cache_set now (some xau) (some fx) src sfx },
             ⟨true, false, true, true, [.primaryFailed e, .fallbackSuccess]⟩)

/-- The fetch sequence of a permitted refresh (app.py lines 171-216), after
`last_user_fetch` has been stamped.  `calledFx` in the log records whether
the primary `fetch_usd_inr` ran; a raised exception from either primary
fetcher diverts into `fallback_fetch`. -/
def attempt_fetch (s : AppState) (now : ℚ) (key : String)
    (xauRes fxRes metRes fx2Res : FetchCall) : AppState × RefreshLog :=
  match xauRes with
  | .exn e => fallback_fetch s now key e metRes fx2Res
  | .ret none _ ra =>
      ({ s with last_retry_after := ra },
       ⟨true, false, false, false, [.primary429 ra]⟩)
  | .ret (some xau) sxau _ =>
      match fxRes with
      | .exn e =>
          let r := fallback_fetch s now key e metRes fx2Res
          (r.1, { r.2 with calledFx := true })
      | .ret none _ ra =>
          ({ s with last_retry_after := ra },
           ⟨true, true, false, false, [.primaryFx429 ra]⟩)
      | .ret (some fx) sfx _ =>
          ({ s with cache := cache_set now (some xau) (some fx) sxau sfx },
           ⟨true, true, false, false, [.cacheUpdated]⟩)

/-- The cooldown check (app.py lines 156-161): allowed when no user fetch is
recorded yet, or when at least `ui_cooldown` seconds have elapsed. -/
def fetch_allowed (s : AppState) (now cooldown : ℚ) : Bool :=
  match s.last_user_fetch with
  | none => true
  | some t => decide (now - t ≥ cooldown)

/-- A press of the Refresh button (app.py lines 166-216): when the cooldown
blocks it, only a warning is shown and nothing else happens; otherwise
`last_user_fetch := now` and the fetch sequence runs. -/
def press_refresh (s : AppState) (now cooldown : ℚ) (key : String)
    (xauRes fxRes metRes fx2Res : FetchCall) : AppState × RefreshLog :=
  if fetch_allowed s now cooldown then
    attempt_fetch { s with last_user_fetch := some now } now key
      xauRes fxRes metRes fx2Res
  else
    (s, ⟨false, false, false, false, [.cooldownWarn]⟩)

/-! ## Helper lemmas about the retry loop -/

/-- Unfolding: on a retryable error with at least one attempt left, the loop
sleeps `backoff`, doubles it, and recurses. -/
theorem httpGetLoop_retry {β : Type} (net : ℕ → NetResp β) (fuel attempt : ℕ)
    (backoff : ℚ) (hf : fuel ≠ 0) (h : isRetryableErr (net attempt) = true) :
    httpGetLoop net (fuel + 1) attempt backoff
      = ((httpGetLoop net fuel (attempt + 1) (backoff * 2)).1,
         (httpGetLoop net fuel (attempt + 1) (backoff * 2)).2.1 + 1,
         backoff :: (httpGetLoop net fuel (attempt + 1) (backoff * 2)).2.2) := by
  cases hn : net attempt with
  | ok body => rw [hn] at h; simp [isRetryableErr] at h
  | status429 ra => rw [hn] at h; simp [isRetryableErr] at h
  | httpError code =>
      rw [hn] at h
      have hc : code ≠ 429 := by simpa [isRetryableErr] using h
      simp [httpGetLoop, hn, hc, hf]
  | transportError msg => simp [httpGetLoop, hn, hf]

/-- Unfolding: on a retryable error on the very last attempt, the loop
re-raises: one request, no sleep. -/
theorem httpGetLoop_one_err {β : Type} (net : ℕ → NetResp β) (attempt : ℕ)
    (backoff : ℚ) (h : isRetryableErr (net attempt) = true) :
    (httpGetLoop net 1 attempt backoff).1.isRaised = true
    ∧ (httpGetLoop net 1 attempt backoff).2.1 = 1
    ∧ (httpGetLoop net 1 attempt backoff).2.2 = [] := by
  cases hn : net attempt with
  | ok body => rw [hn] at h; simp [isRetryableErr] at h
  | status429 ra => rw [hn] at h; simp [isRetryableErr] at h
  | httpError code =>
      rw [hn] at h
      have hc : code ≠ 429 := by simpa [isRetryableErr] using h
      simp [httpGetLoop, hn, hc, GetResult.isRaised]
  | transportError msg => simp [httpGetLoop, hn, GetResult.isRaised]

/-- Unfolding: a 429 observed on the current attempt returns at once with
the hint `last_retry_after or int(backoff)`. -/
theorem httpGetLoop_429_here {β : Type} (net : ℕ → NetResp β)
    (fuel attempt : ℕ) (backoff : ℚ) (ra : RAHeader)
    (h : net attempt = .status429 ra) :
    httpGetLoop net (fuel + 1) attempt backoff
      = (.rateLimited (some (pyOrInt (parseRA ra) (Rat.floor backoff))), 1, []) := by
  simp [httpGetLoop, h]

/-- When every attempt the oracle can serve is a retryable error, the loop
spends all its fuel: the outcome is a re-raised exception, `fuel` requests
are issued, and the sleeps are `backoff * 2^i` for `i = 0 .. fuel-2`. -/
theorem httpGetLoop_allErr {β : Type} (net : ℕ → NetResp β)
    (hnet : ∀ k, isRetryableErr (net k) = true) :
    ∀ fuel attempt backoff, 1 ≤ fuel →
      (httpGetLoop net fuel attempt backoff).1.isRaised = true
      ∧ (httpGetLoop net fuel attempt backoff).2.1 = fuel
      ∧ (httpGetLoop net fuel attempt backoff).2.2
          = (List.range (fuel - 1)).map fun i => backoff * 2 ^ i := by
  intro fuel
  induction fuel with
  | zero => intro _ _ h; omega
  | succ m ih =>
    intro attempt backoff _
    cases Nat.eq_zero_or_pos m with
    | inl h0 =>
        subst h0
        obtain ⟨ha, hb, hc⟩ := httpGetLoop_one_err net attempt backoff (hnet attempt)
        exact ⟨ha, hb, by simpa using hc⟩
    | inr hpos =>
        have hm : m ≠ 0 := by omega
        rw [httpGetLoop_retry net m attempt backoff hm (hnet attempt)]
        obtain ⟨ih1, ih2, ih3⟩ := ih (attempt + 1) (backoff * 2) hpos
        refine ⟨ih1, by simp [ih2], ?_⟩
        simp only [ih3]
        cases m with
        | zero => omega
        | succ m2 =>
          simp only [Nat.add_sub_cancel]
          rw [List.range_succ_eq_map, List.map_cons, List.map_map]
          have hfun : ((fun i => backoff * 2 ^ i) ∘ Nat.succ)
              = fun i => backoff * 2 * 2 ^ i := by
            funext i
            simp only [Function.comp_apply, pow_succ]
            ring
          rw [hfun]
          simp

/-- If attempts `attempt, …, j-1` are retryable errors and attempt `j` is a
429 within the fuel budget, the loop returns `rateLimited` having issued
exactly `j - attempt + 1` requests. -/
theorem httpGetLoop_429_reach {β : Type} (net : ℕ → NetResp β) (j : ℕ)
    (ra : RAHeader) (h429 : net j = .status429 ra) :
    ∀ fuel attempt backoff,
      (∀ k, attempt ≤ k → k < j → isRetryableErr (net k) = true) →
      attempt ≤ j → j < attempt + fuel →
      ∃ hint, (httpGetLoop net fuel attempt backoff).1 = .rateLimited (some hint)
        ∧ (httpGetLoop net fuel attempt backoff).2.1 = j - attempt + 1 := by
  intro fuel
  induction fuel with
  | zero => intro attempt backoff _ h1 h2; omega
  | succ m ih =>
    intro attempt backoff hpre h1 h2
    rcases Nat.eq_or_lt_of_le h1 with heq | hlt
    · subst heq
      rw [httpGetLoop_429_here net m attempt backoff ra h429]
      exact ⟨_, rfl, by simp⟩
    · have hr := hpre attempt le_rfl hlt
      have hm : m ≠ 0 := by omega
      rw [httpGetLoop_retry net m attempt backoff hm hr]
      obtain ⟨hint, hres, hcount⟩ :=
        ih (attempt + 1) (backoff * 2)
          (fun k hk1 hk2 => hpre k (by omega) hk2) (by omega) (by omega)
      exact ⟨hint, hres, by simp only [hcount]; omega⟩

/-! ## C1 -/

/-- C1, counterexample to the claim as stated.  The claim says that when
every attempt fails with a transport or server error, `http_get` "after the
final attempt returns a structured Failed outcome to its caller without
raising an exception".  On an always-timing-out network with `attempts = 3`
the code issues 3 requests and sleeps 1s and 2s, but the last attempt
re-raises the exception (`if attempt == attempts: raise`, app.py lines
86-90) instead of returning a value. -/
theorem C1_cex :
    http_get (fun _ => (NetResp.transportError "timeout" : NetResp Unit)) 3
      = (.raisedTransport "timeout", 3, [1, 2])
    ∧ (http_get (fun _ => (NetResp.transportError "timeout" : NetResp Unit))
        3).1.isRaised = true := by
  constructor <;> norm_num [http_get, httpGetLoop, GetResult.isRaised]

/-- C1 (amended): for an oracle whose every response is a transport-level
or non-429 HTTP error, `http_get` with `attempts ≥ 1` issues exactly
`attempts` requests, sleeps `1 * 2^(attempt-1)` seconds between consecutive
attempts, and after the final attempt re-raises the last error to its
caller (the refresh handler catches it) rather than returning a Failed
value. -/
theorem C1_thm {β : Type} (net : ℕ → NetResp β) (attempts : ℕ)
    (h : 1 ≤ attempts) (hnet : ∀ k, isRetryableErr (net k) = true) :
    (http_get net attempts).2.1 = attempts
    ∧ (http_get net attempts).2.2
        = (List.range (attempts - 1)).map (fun i => (2 : ℚ) ^ i)
    ∧ (http_get net attempts).1.isRaised = true := by
  obtain ⟨h1, h2, h3⟩ := httpGetLoop_allErr net hnet attempts 1 1 h
  simp only [http_get]
  refine ⟨h2, ?_, h1⟩
  rw [h3]
  simp

/-- C1 witness: the amended statement instantiated at a concrete
always-failing oracle with `attempts = 3`. -/
theorem C1_witness :
    (http_get (fun _ => (NetResp.transportError "t" : NetResp Unit)) 3).2.1 = 3
    ∧ (http_get (fun _ => (NetResp.transportError "t" : NetResp Unit)) 3).2.2
        = (List.range 2).map (fun i => (2 : ℚ) ^ i)
    ∧ (http_get (fun _ => (NetResp.transportError "t" : NetResp Unit))
        3).1.isRaised = true :=
  C1_thm (fun _ => NetResp.transportError "t") 3 (by norm_num) (fun _ => rfl)

/-! ## C3 -/

/-- C3: if attempts `1, …, j-1` fail with retryable errors and attempt `j`
observes an HTTP 429 (with `j` within the attempt budget), `http_get`
returns the rate-limited outcome carrying a hint immediately on attempt
`j`: exactly `j` requests are issued, none of the remaining budget is
consumed.  With `j = 1` this is exactly one request. -/
theorem C3_thm {β : Type} (net : ℕ → NetResp β) (attempts j : ℕ)
    (ra : RAHeader) (h1 : 1 ≤ j) (h2 : j ≤ attempts)
    (hpre : ∀ k, k < j → isRetryableErr (net k) = true)
    (h429 : net j = .status429 ra) :
    ∃ hint, (http_get net attempts).1 = .rateLimited (some hint)
      ∧ (http_get net attempts).2.1 = j := by
  obtain ⟨hint, hres, hcount⟩ :=
    httpGetLoop_429_reach net j ra h429 attempts 1 1
      (fun k _ hk => hpre k hk) h1 (by omega)
  simp only [http_get]
  exact ⟨hint, hres, by rw [hcount]; omega⟩

/-- C3 witness: a 429 on attempt 2 after a transport error on attempt 1,
with a budget of 3 attempts, yields `rateLimited` after exactly 2
requests. -/
theorem C3_witness :
    ∃ hint,
      (http_get
        (fun k => if k = 2 then (NetResp.status429 (.value 5) : NetResp Unit)
          else .transportError "t") 3).1 = .rateLimited (some hint)
      ∧ (http_get
          (fun k => if k = 2 then (NetResp.status429 (.value 5) : NetResp Unit)
            else .transportError "t") 3).2.1 = 2 :=
  C3_thm _ 3 2 (.value 5) (by norm_num) (by norm_num)
    (fun k hk => by
      have hne : k ≠ 2 := by omega
      simp [hne, isRetryableErr])
    (by simp)

/-! ## C4 -/

/-- The floor of an integral power of two in `ℚ` is that power of two. -/
theorem ratFloor_pow_two (n : ℕ) : Rat.floor ((2 : ℚ) ^ n) = 2 ^ n := by
  have h : ((2 : ℚ) ^ n) = (((2 ^ n : ℤ) : ℚ)) := by push_cast; ring
  have h2 : Rat.floor ((2 : ℚ) ^ n) = ⌊((2 ^ n : ℤ) : ℚ)⌋ := by rw [← h]; rfl
  rw [h2, Int.floor_intCast]

/-- If attempts `attempt, …, j-1` are retryable errors and attempt `j` is a
429 within the fuel budget, the loop returns the hint
`(parsed Retry-After) or int(backoff)` where the backoff at attempt `j` is
the starting backoff doubled once per preceding attempt. -/
theorem httpGetLoop_429_hint {β : Type} (net : ℕ → NetResp β) (j : ℕ)
    (ra : RAHeader) (h429 : net j = .status429 ra) :
    ∀ fuel attempt backoff,
      (∀ k, attempt ≤ k → k < j → isRetryableErr (net k) = true) →
      attempt ≤ j → j < attempt + fuel →
      (httpGetLoop net fuel attempt backoff).1
        = .rateLimited (some (pyOrInt (parseRA ra)
            (Rat.floor (backoff * 2 ^ (j - attempt))))) := by
  intro fuel
  induction fuel with
  | zero => intro attempt backoff _ h1 h2; omega
  | succ m ih =>
    intro attempt backoff hpre h1 h2
    rcases Nat.eq_or_lt_of_le h1 with heq | hlt
    · subst heq
      rw [httpGetLoop_429_here net m attempt backoff ra h429]
      simp [Nat.sub_self]
    · have hr := hpre attempt le_rfl hlt
      have hm : m ≠ 0 := by omega
      have hstep : (httpGetLoop net (m + 1) attempt backoff).1
          = (httpGetLoop net m (attempt + 1) (backoff * 2)).1 := by
        rw [httpGetLoop_retry net m attempt backoff hm hr]
      rw [hstep, ih (attempt + 1) (backoff * 2)
        (fun k hk1 hk2 => hpre k (by omega) hk2) (by omega) (by omega)]
      have harith : backoff * 2 * 2 ^ (j - (attempt + 1))
          = backoff * 2 ^ (j - attempt) := by
        have hj : j - attempt = (j - (attempt + 1)) + 1 := by omega
        rw [hj, pow_succ]
        ring
      rw [harith]

/-- C4, counterexample to the claim as stated.  The claim says that with an
absent (or unparseable) `Retry-After` header the rate-limited outcome
carries no hint.  In the code the returned hint is
`last_retry_after or int(backoff)` (app.py line 85), so with the header
absent the outcome carries the hint `int(1.0) = 1`, not `None`. -/
theorem C4_cex :
    (http_get (fun _ => (NetResp.status429 .absent : NetResp Unit)) 3).1
      = .rateLimited (some 1) := by rfl

/-- C4 (amended): on a 429 observed on any attempt `j` within the budget
(reached through retryable failures on the earlier attempts), the hint is
`(parsed Retry-After) or int(backoff)` with `backoff = 2^(j-1)`: an absent,
unparseable, or zero-valued header yields the hint `2^(j-1)` (so `1` on the
first attempt), and a header parsing to a nonzero integer `n` yields `n`.
The hint is never absent on a 429 return. -/
theorem C4_thm {β : Type} (net : ℕ → NetResp β) (attempts j : ℕ)
    (ra : RAHeader) (h1 : 1 ≤ j) (h2 : j ≤ attempts)
    (hpre : ∀ k, k < j → isRetryableErr (net k) = true)
    (h429 : net j = .status429 ra) :
    (http_get net attempts).1
      = .rateLimited (some (pyOrInt (parseRA ra) (2 ^ (j - 1))))
    ∧ pyOrInt (parseRA .absent) (2 ^ (j - 1)) = 2 ^ (j - 1)
    ∧ pyOrInt (parseRA .malformed) (2 ^ (j - 1)) = 2 ^ (j - 1)
    ∧ pyOrInt (parseRA (.value 0)) (2 ^ (j - 1)) = 2 ^ (j - 1)
    ∧ ∀ n : ℤ, n ≠ 0 → pyOrInt (parseRA (.value n)) (2 ^ (j - 1)) = n := by
  refine ⟨?_, rfl, rfl, ?_, ?_⟩
  · have hmain := httpGetLoop_429_hint net j ra h429 attempts 1 1
      (fun k _ hk => hpre k hk) h1 (by omega)
    simp only [http_get]
    rw [hmain, one_mul, ratFloor_pow_two]
  · simp [pyOrInt, parseRA]
  · intro n hn
    simp [pyOrInt, parseRA, hn]

/-- C4 witness: the amended statement instantiated at a 429 with an absent
header on attempt 2 (after a transport error on attempt 1) with a budget of
3 attempts: the hint is the doubled backoff `2^1 = 2`. -/
theorem C4_witness :
    (http_get
        (fun k => if k = 2 then (NetResp.status429 .absent : NetResp Unit)
          else .transportError "t") 3).1
      = .rateLimited (some (pyOrInt (parseRA .absent) (2 ^ (2 - 1))))
    ∧ pyOrInt (parseRA .absent) (2 ^ (2 - 1)) = 2 ^ (2 - 1)
    ∧ pyOrInt (parseRA .malformed) (2 ^ (2 - 1)) = 2 ^ (2 - 1)
    ∧ pyOrInt (parseRA (.value 0)) (2 ^ (2 - 1)) = 2 ^ (2 - 1)
    ∧ ∀ n : ℤ, n ≠ 0 → pyOrInt (parseRA (.value n)) (2 ^ (2 - 1)) = n :=
  C4_thm _ 3 2 .absent (by norm_num) (by norm_num)
    (fun k hk => by
      have hne : k ≠ 2 := by omega
      simp [hne, isRetryableErr])
    (by simp)

/-! ## C2 -/

/-- C2, counterexample to the claim as stated.  The claim says the entry is
treated as absent at any time with `now >= expires_at` (age `>= TTL`).  The
code tests `age > cache_ttl_seconds` (app.py line 48), so at age exactly
equal to the TTL (entry stamped at time 0, read at time 10 with TTL 10) the
entry is still returned. -/
theorem C2_cex :
    cache_get
      (some ⟨some 2000, some 83, 0, some "Yahoo Finance",
        some "exchangerate.host"⟩) 10 10
      = some ⟨some 2000, some 83, 0, some "Yahoo Finance",
          some "exchangerate.host"⟩ := by
  norm_num [cache_get]

/-- C2 (amended): `cache_get` returns the stored entry iff
`now - fetched_at ≤ TTL` (equivalently `now ≤ expires_at`), returns `None`
iff `now - fetched_at > TTL` (strictly after the expiry instant), and
returns `None` on an empty cache. -/
theorem C2_thm (e : CacheEntry) (now ttl : ℚ) :
    (cache_get (some e) now ttl = some e ↔ now - e.fetched_at ≤ ttl)
    ∧ (cache_get (some e) now ttl = none ↔ ttl < now - e.fetched_at)
    ∧ cache_get none now ttl = none := by
  refine ⟨?_, ?_, rfl⟩ <;> by_cases h : now - e.fetched_at > ttl <;>
    simp [cache_get, h] <;> linarith

/-! ## C6 -/

/-- C6: when the Metals-API request succeeds with a body carrying the
XAU-per-USD rate `r`, `fetch_metals_api` returns the inverted rate
`1.0 / r` (USD per XAU) when `r ≠ 0`, and when `r = 0` the guard
`if float(r) != 0` (app.py line 127) yields no price (the triple
`(None, "Metals-API", None)`) instead of performing the division. -/
theorem C6_thm (net : ℕ → NetResp MetalsBody) (body : MetalsBody) (r : ℚ)
    (hsucc : (http_get net 2).1 = .success body) (hr : body.xau = some r) :
    fetch_metals_api net
      = .ok (if r = 0 then none else some (1 / r), some "Metals-API", none)
    ∧ (r = 0 → fetch_metals_api net = .ok (none, some "Metals-API", none))
    ∧ (r ≠ 0 →
        fetch_metals_api net = .ok (some (1 / r), some "Metals-API", none)) := by
  have hmain : fetch_metals_api net
      = .ok (if r = 0 then none else some (1 / r), some "Metals-API", none) := by
    unfold fetch_metals_api
    rcases hEq : http_get net 2 with ⟨res, cnt, sl⟩
    rw [hEq] at hsucc
    simp only at hsucc
    subst hsucc
    by_cases h0 : r = 0 <;> simp [hr, h0]
  refine ⟨hmain, fun h0 => ?_, fun h0 => ?_⟩ <;> rw [hmain] <;> simp [h0]

/-- C6 witness: a first-attempt success carrying the rate `2` yields the
inverted price `1/2`; the same statement instantiated at rate `0` (second
conjunct applied) yields no price. -/
theorem C6_witness :
    fetch_metals_api (fun _ => NetResp.ok ⟨some (2 : ℚ)⟩)
      = .ok (if (2 : ℚ) = 0 then none else some (1 / 2), some "Metals-API", none)
    ∧ fetch_metals_api (fun _ => NetResp.ok ⟨some (0 : ℚ)⟩)
      = .ok (none, some "Metals-API", none) :=
  ⟨(C6_thm (fun _ => NetResp.ok ⟨some 2⟩) ⟨some 2⟩ 2 rfl rfl).1,
   (C6_thm (fun _ => NetResp.ok ⟨some 0⟩) ⟨some 0⟩ 0 rfl rfl).2.1 rfl⟩

/-! ## C8 -/

/-- C8, counterexample to the claim as stated.  The claim expects
`inr_per_10g_24K ≈ 53384.88` within 0.01 for `xau_usd = 2000`,
`usd_inr = 83`.  The code computes
`2000 / 31.1034768 * 10 * 83 = 53370.2393…`, which differs from the quoted
figure by more than 14 rupees (the quoted 64.3191 per-gram figure is not
`2000 / 31.1034768 = 64.3015…`). -/
theorem C8_cex :
    ¬ |inr_per_10g 2000 83 - 5338488 / 100| ≤ 1 / 100 := by
  intro h
  rw [abs_le] at h
  have h1 := h.1
  norm_num [inr_per_10g, usd_per_10g, usd_per_gram, GRAMS_PER_TROY_OUNCE] at h1

/-- C8 (amended): for `xau_usd = 2000`, `usd_inr = 83`, import duty 10%,
GST 3%, the pipeline divides by 31.1034768, multiplies by 10 and the FX
rate, applies import duty first and GST second, and the 24K figures are
`price_per_gram_usd ≈ 64.3015`, `inr_per_10g_24K ≈ 53370.24`,
after-import `≈ 58707.26`, final after-GST `≈ 60468.48` (each within
0.01). -/
theorem C8_thm :
    |usd_per_gram 2000 - 643015 / 10000| ≤ 1 / 100
    ∧ |inr_per_10g 2000 83 - 5337024 / 100| ≤ 1 / 100
    ∧ |after_import 10 (purity_base (inr_per_10g 2000 83) 1)
        - 5870726 / 100| ≤ 1 / 100
    ∧ |after_gst 3 (after_import 10 (purity_base (inr_per_10g 2000 83) 1))
        - 6046848 / 100| ≤ 1 / 100
    ∧ ∀ duty gst b : ℚ,
        after_gst gst (after_import duty b)
          = b * (1 + duty / 100) * (1 + gst / 100) := by
  refine ⟨?_, ?_, ?_, ?_, fun duty gst b => by
    simp only [after_gst, after_import]⟩ <;>
  · rw [abs_le]
    constructor <;>
      norm_num [after_gst, after_import, purity_base, inr_per_10g,
        usd_per_10g, usd_per_gram, GRAMS_PER_TROY_OUNCE]

/-! ## C9 -/

/-- C9: for every pair with `xau_usd > 0`, the raw per-purity bases satisfy
`rate22K = rate24K * 22/24` and `rate18K = rate24K * 18/24` exactly in the
rational model (hence well within the claimed 1e-9 relative tolerance). -/
theorem C9_thm (xau fx : ℚ) (h : 0 < xau) :
    purity_base (inr_per_10g xau fx) (22 / 24)
        = purity_base (inr_per_10g xau fx) 1 * (22 / 24)
    ∧ purity_base (inr_per_10g xau fx) (18 / 24)
        = purity_base (inr_per_10g xau fx) 1 * (18 / 24) := by
  constructor <;> (simp only [purity_base]; ring)

/-- C9 witness: the statement instantiated at `xau_usd = 2000 > 0`,
`usd_inr = 83`. -/
theorem C9_witness :
    (0 : ℚ) < 2000
    ∧ (purity_base (inr_per_10g 2000 83) (22 / 24)
          = purity_base (inr_per_10g 2000 83) 1 * (22 / 24)
        ∧ purity_base (inr_per_10g 2000 83) (18 / 24)
          = purity_base (inr_per_10g 2000 83) 1 * (18 / 24)) :=
  ⟨by norm_num, C9_thm 2000 83 (by norm_num)⟩

/-! ## Helper lemmas about the refresh flow -/

/-- The fallback block never touches `last_user_fetch` or
`last_retry_after`, and always reports the primary failure. -/
theorem fallback_fetch_frame (s : AppState) (now : ℚ) (key e : String)
    (metRes fx2Res : FetchCall) :
    (fallback_fetch s now key e metRes fx2Res).1.last_user_fetch
        = s.last_user_fetch
    ∧ (fallback_fetch s now key e metRes fx2Res).1.last_retry_after
        = s.last_retry_after
    ∧ (fallback_fetch s now key e metRes fx2Res).2.calledXau = true := by
  by_cases hk : key = "" <;>
    rcases metRes with ⟨_ | mp, ms, mr⟩ | me <;>
      rcases fx2Res with ⟨_ | fp, fs, fr⟩ | fe <;>
        simp [fallback_fetch, hk]

/-- With a non-empty key, the fallback block always invokes
`fetch_metals_api`. -/
theorem fallback_fetch_calledMetals (s : AppState) (now : ℚ) (key e : String)
    (metRes fx2Res : FetchCall) (hk : key ≠ "") :
    (fallback_fetch s now key e metRes fx2Res).2.calledMetals = true := by
  rcases metRes with ⟨_ | mp, ms, mr⟩ | me <;>
    rcases fx2Res with ⟨_ | fp, fs, fr⟩ | fe <;>
      simp [fallback_fetch, hk]

/-- The fallback block leaves the cache unchanged unless both the Metals-API
call and the FX call return a price, in which case the cache holds the
matched pair stamped `now`. -/
theorem fallback_fetch_cache (s : AppState) (now : ℚ) (key e : String)
    (metRes fx2Res : FetchCall) :
    (fallback_fetch s now key e metRes fx2Res).1.cache = s.cache
    ∨ ∃ p sx q sf rm rf,
        (fallback_fetch s now key e metRes fx2Res).1.cache
          = some ⟨some p, some q, now, sx, sf⟩
        ∧ metRes = .ret (some p) sx rm ∧ fx2Res = .ret (some q) sf rf := by
  by_cases hk : key = ""
  · left; simp [fallback_fetch, hk]
  · rcases metRes with ⟨_ | mp, ms, mr⟩ | me
    · left; simp [fallback_fetch, hk]
    · rcases fx2Res with ⟨_ | fp, fs, fr⟩ | fe
      · left; simp [fallback_fetch, hk]
      · right
        exact ⟨mp, ms, fp, fs, mr, fr,
          by simp [fallback_fetch, hk, cache_set], rfl, rfl⟩
      · left; simp [fallback_fetch, hk]
    · left; simp [fallback_fetch, hk]

/-- The fetch sequence always invokes the primary XAU fetch and never
touches `last_user_fetch`. -/
theorem attempt_fetch_frame (s : AppState) (now : ℚ) (key : String)
    (xauRes fxRes metRes fx2Res : FetchCall) :
    (attempt_fetch s now key xauRes fxRes metRes fx2Res).2.calledXau = true
    ∧ (attempt_fetch s now key xauRes fxRes metRes fx2Res).1.last_user_fetch
        = s.last_user_fetch := by
  rcases xauRes with ⟨_ | xp, xs, xr⟩ | xe
  · simp [attempt_fetch]
  · rcases fxRes with ⟨_ | fp, fs, fr⟩ | fe
    · simp [attempt_fetch]
    · simp [attempt_fetch]
    · have := fallback_fetch_frame s now key fe metRes fx2Res
      simp [attempt_fetch, this.1, this.2.2]
  · have := fallback_fetch_frame s now key xe metRes fx2Res
    simp [attempt_fetch, this.1, this.2.2]

/-- The fetch sequence leaves the cache unchanged except when a matched
pair of prices was obtained in this cycle — from the two primary fetches,
or from the fallback pair. -/
theorem attempt_fetch_cache (s : AppState) (now : ℚ) (key : String)
    (xauRes fxRes metRes fx2Res : FetchCall) :
    (attempt_fetch s now key xauRes fxRes metRes fx2Res).1.cache = s.cache
    ∨ ∃ p sx q sf,
        (attempt_fetch s now key xauRes fxRes metRes fx2Res).1.cache
          = some ⟨some p, some q, now, sx, sf⟩
        ∧ ((∃ rx rf, xauRes = .ret (some p) sx rx ∧ fxRes = .ret (some q) sf rf)
          ∨ (∃ rm rf, metRes = .ret (some p) sx rm
              ∧ fx2Res = .ret (some q) sf rf)) := by
  rcases xauRes with ⟨_ | xp, xs, xr⟩ | xe
  · left; simp [attempt_fetch]
  · rcases fxRes with ⟨_ | fp, fs, fr⟩ | fe
    · left; simp [attempt_fetch]
    · right
      exact ⟨xp, xs, fp, fs,
        by simp [attempt_fetch, cache_set], Or.inl ⟨xr, fr, rfl, rfl⟩⟩
    · rcases fallback_fetch_cache s now key fe metRes fx2Res with h | ⟨p, sx, q, sf, rm, rf, hc, hm, hf⟩
      · left; simpa [attempt_fetch] using h
      · right
        exact ⟨p, sx, q, sf, by simpa [attempt_fetch] using hc,
          Or.inr ⟨rm, rf, hm, hf⟩⟩
  · rcases fallback_fetch_cache s now key xe metRes fx2Res with h | ⟨p, sx, q, sf, rm, rf, hc, hm, hf⟩
    · left; simpa [attempt_fetch] using h
    · right
      exact ⟨p, sx, q, sf, by simpa [attempt_fetch] using hc,
        Or.inr ⟨rm, rf, hm, hf⟩⟩

/-! ## C5 -/

/-- C5, counterexample to the claim as stated.  State: empty cache, a
Metals-API key configured, a fallback that would succeed (rate and FX
available).  The primary gold fetch returns the RateLimited triple
`(None, None, 7)`.  The claim says the resolver "continues to the next
configured adapter"; in the code the `if xau_res[0] is None` branch
(app.py lines 175-179) only records the error and the hint — the fallback
block is never entered (`calledMetals = false`) and the cache stays
empty. -/
theorem C5_cex :
    (attempt_fetch ⟨none, some 0, none⟩ 100 "k" (.ret none none (some 7))
        (.ret (some 83) (some "exchangerate.host") none)
        (.ret (some 2000) (some "Metals-API") none)
        (.ret (some 83) (some "exchangerate.host") none)).2.calledMetals = false
    ∧ (attempt_fetch ⟨none, some 0, none⟩ 100 "k" (.ret none none (some 7))
        (.ret (some 83) (some "exchangerate.host") none)
        (.ret (some 2000) (some "Metals-API") none)
        (.ret (some 83) (some "exchangerate.host") none))
      = (⟨none, some 0, some 7⟩,
         ⟨true, false, false, false, [.primary429 (some 7)]⟩) := by
  constructor <;> rfl

/-- C5 (amended): when the primary gold fetch returns the RateLimited
triple, the handler records the diagnostic and stores the retry-after hint
but ends the resolve cycle without trying any further adapter (the
Metals-API fallback is not invoked and the cache is untouched); the
fallback is attempted (given a configured key) only when the primary fetch
raises an exception. -/
theorem C5_thm (s : AppState) (now : ℚ) (key : String) (ra : Option ℤ)
    (src : Option String) (fxRes metRes fx2Res : FetchCall) :
    attempt_fetch s now key (.ret none src ra) fxRes metRes fx2Res
      = ({ s with last_retry_after := ra },
         ⟨true, false, false, false, [.primary429 ra]⟩)
    ∧ (∀ e, key ≠ "" →
        (attempt_fetch s now key (.exn e) fxRes metRes fx2Res).2.calledMetals
          = true) := by
  refine ⟨rfl, fun e hk => ?_⟩
  simpa [attempt_fetch] using
    fallback_fetch_calledMetals s now key e metRes fx2Res hk

/-- C5 witness: the amended statement's fallback clause at a concrete
state with key "k" and a raising primary fetch. -/
theorem C5_witness :
    (attempt_fetch ⟨none, none, none⟩ 5 "k" (.exn "boom")
        (.ret none none none) (.ret none none none)
        (.ret none none none)).2.calledMetals = true :=
  (C5_thm ⟨none, none, none⟩ 5 "k" none none (.ret none none none)
      (.ret none none none) (.ret none none none)).2 "boom" (by simp)

/-! ## C7 -/

/-- C7: the refresh press is rejected exactly when a prior user fetch is
recorded and less than the cooldown has elapsed; a rejected press changes
nothing (state returned verbatim, no fetcher invoked, only the warning);
a press with no prior fetch or with the cooldown elapsed stamps
`last_user_fetch := now` and runs the primary fetch. -/
theorem C7_thm (s : AppState) (now cooldown : ℚ) (key : String)
    (xauRes fxRes metRes fx2Res : FetchCall) :
    (fetch_allowed s now cooldown = false ↔
      ∃ t, s.last_user_fetch = some t ∧ now - t < cooldown)
    ∧ (fetch_allowed s now cooldown = false →
        press_refresh s now cooldown key xauRes fxRes metRes fx2Res
          = (s, ⟨false, false, false, false, [.cooldownWarn]⟩))
    ∧ (fetch_allowed s now cooldown = true →
        (press_refresh s now cooldown key xauRes fxRes metRes fx2Res).2.calledXau
            = true
        ∧ (press_refresh s now cooldown key xauRes fxRes
            metRes fx2Res).1.last_user_fetch = some now) := by
  refine ⟨?_, fun h => ?_, fun h => ?_⟩
  · cases hl : s.last_user_fetch with
    | none => simp [fetch_allowed, hl]
    | some t => simp [fetch_allowed, hl, not_le]
  · rw [press_refresh, if_neg (by simp [h])]
  · simp only [press_refresh, h, if_true]
    have := attempt_fetch_frame { s with last_user_fetch := some now } now key
      xauRes fxRes metRes fx2Res
    exact ⟨this.1, this.2⟩

/-- C7 witness: with the last user fetch at t = 0, a press at t = 5 under a
10-second cooldown is rejected unchanged; a press at t = 12 is allowed and
stamps the new time. -/
theorem C7_witness :
    press_refresh ⟨none, some 0, none⟩ 5 10 "" (.ret none none none)
        (.ret none none none) (.ret none none none) (.ret none none none)
      = (⟨none, some 0, none⟩,
         ⟨false, false, false, false, [.cooldownWarn]⟩)
    ∧ (press_refresh ⟨none, some 0, none⟩ 12 10 "" (.ret none none none)
        (.ret none none none) (.ret none none none)
        (.ret none none none)).1.last_user_fetch = some 12 :=
  ⟨(C7_thm ⟨none, some 0, none⟩ 5 10 "" (.ret none none none)
      (.ret none none none) (.ret none none none) (.ret none none none)).2.1
      (by norm_num [fetch_allowed]),
   ((C7_thm ⟨none, some 0, none⟩ 12 10 "" (.ret none none none)
      (.ret none none none) (.ret none none none) (.ret none none none)).2.2
      (by norm_num [fetch_allowed])).2⟩

/-! ## C10 -/

/-- C10: across a full press of the refresh button, the cache either
retains its previous contents unchanged (every failure path: cooldown
rejection, 429, exception, fallback FX failure) or is overwritten in one
`cache_set` with a gold price and an FX rate both present, a single shared
`fetched_at = now`, and both values provenanced from the same cycle's
successful fetch pair (primary pair, or fallback pair). -/
theorem C10_thm (s : AppState) (now cooldown : ℚ) (key : String)
    (xauRes fxRes metRes fx2Res : FetchCall) :
    (press_refresh s now cooldown key xauRes fxRes metRes fx2Res).1.cache
        = s.cache
    ∨ ∃ p sx q sf,
        (press_refresh s now cooldown key xauRes fxRes metRes fx2Res).1.cache
          = some ⟨some p, some q, now, sx, sf⟩
        ∧ ((∃ rx rf, xauRes = .ret (some p) sx rx ∧ fxRes = .ret (some q) sf rf)
          ∨ (∃ rm rf, metRes = .ret (some p) sx rm
              ∧ fx2Res = .ret (some q) sf rf)) := by
  by_cases h : fetch_allowed s now cooldown
  · have := attempt_fetch_cache { s with last_user_fetch := some now } now key
      xauRes fxRes metRes fx2Res
    simpa [press_refresh, h] using this
  · left
    simp [press_refresh, h]

end GoldRate
